import Mathlib

/-!
Verification of the IVA-voice segmentation core.

This file gives a shallow embedding, in Lean 4, of the parts of the
repository that the checked properties talk about:

* `bot/audio/audio_processor.py` — the `AudioProcessor` class: per-call
  segment buffering and silence-based utterance segmentation
  (`process_audio_chunk`, `get_call_state`, `cleanup_call_state`,
  `finish_processing`);
* `bot/task_manager/task_manager.py` — the `TaskManager` class
  (`create_task`, `cleanup_call`, `get_lock`);
* `bot/sockets/socket_manager.py` — `SocketManager.send_message`.

Modelling conventions:

* raw audio bytes are `List Byte` with `Byte := Fin 256`;
* Python floats are idealised as `ℚ` (the file never relies on rounding);
* `scipy.signal.resample_poly` is an external library routine: it is kept
  abstract as a parameter `R : Resampler`, a function from the decoded,
  normalised signal to an optional output signal (`none` models the call
  raising, which the source catches);
* `numpy` decode (`np.frombuffer(dtype=int16)`) is modelled exactly: it
  fails iff the byte count is odd, and pairs bytes little-endian into
  signed 16-bit integers;
* the comparison `np.sqrt(np.mean(x ** 2)) < t` is modelled by the
  equivalent rational test `(0 ≤ t ∧ mean (x²) < t²)` for nonempty `x`
  (`Real.sqrt m < t ↔ 0 ≤ t ∧ m < t²` for `m ≥ 0`; the lemma
  `energyLt_iff_sqrt` below proves the equivalence), and as `False` for
  empty `x` (numpy yields NaN there, and `NaN < t` is false);
* Python dicts are modelled as association lists with first-key lookup,
  in-place update and key removal.
-/

abbrev Byte := Fin 256

/-- First-match lookup in an association list (Python `d[k]` / `k in d`). -/
def aLookup {α β : Type} [DecidableEq α] (k : α) : List (α × β) → Option β
  | [] => none
  | (k', v) :: rest => if k' = k then some v else aLookup k rest

/-- Python `d[k] = v`: replace the value in place if the key is present,
append otherwise (insertion order preserved). -/
def aInsert {α β : Type} [DecidableEq α] (k : α) (v : β) : List (α × β) → List (α × β)
  | [] => [(k, v)]
  | (k', v') :: rest => if k' = k then (k, v) :: rest else (k', v') :: aInsert k v rest

/-- Python `del d[k]` (under the dict invariant that keys are unique,
removing every occurrence coincides with removing the single entry). -/
def aErase {α β : Type} [DecidableEq α] (k : α) : List (α × β) → List (α × β)
  | [] => []
  | (k', v') :: rest => if k' = k then aErase k rest else (k', v') :: aErase k rest

theorem aLookup_aInsert_self {α β : Type} [DecidableEq α] (k : α) (v : β)
    (l : List (α × β)) : aLookup k (aInsert k v l) = some v := by
  induction l with
  | nil => simp [aInsert, aLookup]
  | cons p rest ih =>
    obtain ⟨k', v'⟩ := p
    by_cases h : k' = k <;> simp [aInsert, aLookup, h, ih]

theorem aLookup_aInsert_ne {α β : Type} [DecidableEq α] {k k' : α} (v : β)
    (l : List (α × β)) (h : k' ≠ k) : aLookup k' (aInsert k v l) = aLookup k' l := by
  induction l with
  | nil => simp [aInsert, aLookup, Ne.symm h]
  | cons p rest ih =>
    obtain ⟨k₀, v₀⟩ := p
    simp only [aInsert]
    by_cases h₀ : k₀ = k
    · subst h₀
      simp [aLookup, Ne.symm h]
    · simp only [if_neg h₀, aLookup, ih]

theorem aInsert_lookup_eq_self {α β : Type} [DecidableEq α] {k : α} {v : β}
    {l : List (α × β)} (h : aLookup k l = some v) : aInsert k v l = l := by
  induction l with
  | nil => simp [aLookup] at h
  | cons p rest ih =>
    obtain ⟨k', v'⟩ := p
    by_cases h' : k' = k
    · subst h'
      simp [aLookup] at h
      simp [aInsert, h]
    · simp only [aLookup, if_neg h'] at h
      simp [aInsert, h', ih h]

theorem aLookup_aErase_self {α β : Type} [DecidableEq α] (k : α)
    (l : List (α × β)) : aLookup k (aErase k l) = none := by
  induction l with
  | nil => simp [aErase, aLookup]
  | cons p rest ih =>
    obtain ⟨k', v'⟩ := p
    by_cases h : k' = k <;> simp [aErase, aLookup, h, ih]

theorem aLookup_mem {α β : Type} [DecidableEq α] {k : α} {v : β}
    {l : List (α × β)} (h : aLookup k l = some v) : (k, v) ∈ l := by
  induction l with
  | nil => simp [aLookup] at h
  | cons p rest ih =>
    obtain ⟨k', v'⟩ := p
    by_cases h' : k' = k
    · subst h'
      simp [aLookup] at h
      simp [h]
    · simp only [aLookup, if_neg h'] at h
      exact List.mem_cons_of_mem _ (ih h)

/-! ## Decoding and signal measures (numpy calls in `audio_processor.py`) -/

/-- Two's-complement reading of a 16-bit unsigned value (numpy `int16`). -/
def toSigned (v : ℕ) : ℤ := if v < 32768 then (v : ℤ) else (v : ℤ) - 65536

/-- `np.frombuffer(audio_data, dtype=np.int16)`: little-endian pairing;
raises (`none`) iff the buffer length is not a multiple of 2. -/
def decodeInt16 : List Byte → Option (List ℤ)
  | [] => some []
  | [_] => none
  | lo :: hi :: rest =>
    (decodeInt16 rest).map (fun xs => toSigned (lo.val + 256 * hi.val) :: xs)

/-- `audio_int16.astype(np.float32) / 32768.0`, idealised over `ℚ`. -/
def toFloat (xs : List ℤ) : List ℚ := List.map (fun i : ℤ => (i : ℚ) / 32768) xs

/-- Abstract stand-in for `scipy.signal.resample_poly(·, up, down)`.
`none` models the library call raising. -/
def Resampler := List ℚ → Option (List ℚ)

def sumSq (x : List ℚ) : ℚ := (x.map (fun v => v ^ 2)).sum

/-- `np.mean(audio_16k ** 2)` (meaningful only for nonempty input). -/
def rmsSq (x : List ℚ) : ℚ := sumSq x / (x.length : ℚ)

/-- The source test `np.sqrt(np.mean(audio_16k ** 2)) < silence_threshold`,
expressed without square roots: for nonempty `x`, `√m < t ↔ 0 ≤ t ∧ m < t²`
(see `energyLt_iff_sqrt`); for empty `x` numpy produces NaN and the
comparison is false. -/
def energyLt (x : List ℚ) (t : ℚ) : Bool :=
  !x.isEmpty && decide (0 ≤ t) && decide (rmsSq x < t ^ 2)

theorem sumSq_nonneg (x : List ℚ) : 0 ≤ sumSq x := by
  induction x with
  | nil => simp [sumSq]
  | cons a l ih =>
    simp only [sumSq, List.map_cons, List.sum_cons]
    have := sq_nonneg a
    simp only [sumSq] at ih
    nlinarith

theorem rmsSq_nonneg (x : List ℚ) : 0 ≤ rmsSq x := by
  unfold rmsSq
  have h1 := sumSq_nonneg x
  have h2 : (0 : ℚ) ≤ (x.length : ℚ) := by positivity
  positivity

/-- Justification for `energyLt`: on nonempty input it agrees with the
floating-point comparison `sqrt (mean (x²)) < t` read over the reals. -/
theorem energyLt_iff_sqrt (x : List ℚ) (t : ℚ) (hx : x ≠ []) :
    energyLt x t = true ↔ Real.sqrt ((rmsSq x : ℚ) : ℝ) < ((t : ℚ) : ℝ) := by
  have hie : x.isEmpty = false := by
    cases x with
    | nil => exact absurd rfl hx
    | cons a l => rfl
  constructor
  · intro h
    simp only [energyLt, hie, Bool.not_false, Bool.true_and, Bool.and_eq_true,
      decide_eq_true_eq] at h
    obtain ⟨ht, hlt⟩ := h
    rcases lt_or_eq_of_le ht with ht' | ht'
    · refine (Real.sqrt_lt' (by exact_mod_cast ht')).mpr ?_
      exact_mod_cast hlt
    · exfalso
      rw [← ht'] at hlt
      have h0 := rmsSq_nonneg x
      nlinarith
  · intro h
    have ht : (0 : ℝ) < ((t : ℚ) : ℝ) := lt_of_le_of_lt (Real.sqrt_nonneg _) h
    have hlt := (Real.sqrt_lt' ht).mp h
    simp only [energyLt, hie, Bool.not_false, Bool.true_and, Bool.and_eq_true,
      decide_eq_true_eq]
    constructor
    · exact_mod_cast ht.le
    · exact_mod_cast hlt

/-- `np.max(np.abs(arr))`: `none` models the raise on an empty array. -/
def maxAbs : List ℚ → Option ℚ
  | [] => none
  | x :: xs => some ((xs.map (fun v => |v|)).foldl max |x|)

/-! ## `AudioProcessor` (bot/audio/audio_processor.py) -/

/-- The constructor parameters of `AudioProcessor.__init__` (process-wide,
immutable). -/
structure AudioConfig where
  original_sample_rate : ℕ
  target_sample_rate : ℕ
  silence_threshold : ℚ
  silence_duration_ms : ℕ
  min_buffer_duration_s : ℚ
deriving DecidableEq

/-- `self.bytes_per_sample = 2  # int16` -/
def bytes_per_sample : ℕ := 2

/-- `self.channels = 1` -/
def channels : ℕ := 1

/-- The defaults of `AudioProcessor.__init__` (48000 Hz in, 16000 Hz out,
threshold 0.02, silence 1500 ms, minimum buffer 2.0 s). -/
def defaultConfig : AudioConfig :=
  { original_sample_rate := 48000
    target_sample_rate := 16000
    silence_threshold := 1 / 50
    silence_duration_ms := 1500
    min_buffer_duration_s := 2 }

/-- One entry of `self.call_states`: the dict built by the state
initialiser (`audio_buffer`, `silent_duration`, `is_processing`). -/
structure CallState where
  audio_buffer : List Byte
  silent_duration : ℚ
  is_processing : Bool
deriving DecidableEq

/-- The fresh dict stored for a new call (empty buffer, zero silence,
not processing). -/
def freshCallState : CallState :=
  { audio_buffer := [], silent_duration := 0, is_processing := false }

/-- `self.call_states`: call id → per-call state. -/
abbrev CallStates := List (String × CallState)

/-- `AudioProcessor.initialize_call_state` (the name is abbreviated here):
store a fresh state for the call id. -/
def init_call_state (states : CallStates) (call_id : String) : CallStates :=
  aInsert call_id freshCallState states

/-- `AudioProcessor.cleanup_call_state`: delete the entry if present. -/
def cleanup_call_state (states : CallStates) (call_id : String) : CallStates :=
  aErase call_id states

/-- `AudioProcessor.get_call_state`: get or create, returning the updated
registry together with the state the Python method returns by reference. -/
def get_call_state (states : CallStates) (call_id : String) : CallStates × CallState :=
  match aLookup call_id states with
  | some s => (states, s)
  | none => (init_call_state states call_id, freshCallState)

/-- The body of `AudioProcessor.process_audio_chunk` after the
`get_call_state` line, acting on one call state.  Every early `return`
of the Python code (including the `except` handler, which returns with
whatever in-place mutations already happened) is a branch here. -/
def processChunkCore (cfg : AudioConfig) (R : Resampler) (state : CallState)
    (audio_data : List Byte) : CallState × Bool × Option (List Byte) :=
  if state.is_processing then
    (state, false, none)
  else
    -- state['audio_buffer'].extend(audio_data)
    let state1 : CallState := { state with audio_buffer := state.audio_buffer ++ audio_data }
    let chunk_samples : ℕ := audio_data.length / (bytes_per_sample * channels)
    let chunk_duration : ℚ := (chunk_samples : ℚ) / (cfg.original_sample_rate : ℚ)
    match decodeInt16 audio_data with
    | none => (state1, false, none)
    | some audio_int16 =>
      match R (toFloat audio_int16) with
      | none => (state1, false, none)
      | some audio_16k =>
        let silent2 : ℚ :=
          if energyLt audio_16k cfg.silence_threshold then
            state1.silent_duration + chunk_duration
          else 0
        let state2 : CallState := { state1 with silent_duration := silent2 }
        let min_buffer_len : ℚ := (cfg.target_sample_rate : ℚ) * cfg.min_buffer_duration_s * 2
        let silence_threshold_s : ℚ := (cfg.silence_duration_ms : ℚ) / 1000
        if silence_threshold_s ≤ state2.silent_duration ∧
            min_buffer_len < (state2.audio_buffer.length : ℚ) then
          match decodeInt16 state2.audio_buffer with
          | none => (state2, false, none)
          | some audio_int16_full =>
            match R (toFloat audio_int16_full) with
            | none => (state2, false, none)
            | some audio_16k_full =>
              match maxAbs audio_16k_full with
              | none => (state2, false, none)
              | some max_energy =>
                if max_energy < cfg.silence_threshold then
                  ({ state2 with audio_buffer := [], silent_duration := 0 }, false, none)
                else
                  ({ state2 with
                      audio_buffer := []
                      silent_duration := 0
                      is_processing := true }, true, some state2.audio_buffer)
        else
          (state2, false, none)

/-- `AudioProcessor.process_audio_chunk`: look the state up (creating it
if needed), run the body, store the mutated state back. -/
def process_audio_chunk (cfg : AudioConfig) (R : Resampler) (states : CallStates)
    (call_id : String) (audio_data : List Byte) :
    CallStates × Bool × Option (List Byte) :=
  let p := get_call_state states call_id
  let r := processChunkCore cfg R p.2 audio_data
  (aInsert call_id r.1 p.1, r.2.1, r.2.2)

/-- `AudioProcessor.finish_processing`: clear the `is_processing` flag. -/
def finish_processing (states : CallStates) (call_id : String) : CallStates :=
  let p := get_call_state states call_id
  aInsert call_id { p.2 with is_processing := false } p.1

/-- Feed a list of chunks through `process_audio_chunk` for one call,
collecting every buffer handed back with a `True` verdict ("segment
ready" events), as the receive loop in `socket_manager.py` does. -/
def runChunks (cfg : AudioConfig) (R : Resampler) (call_id : String) :
    CallStates → List (List Byte) → CallStates × List (List Byte)
  | states, [] => (states, [])
  | states, c :: cs =>
    let r := process_audio_chunk cfg R states call_id c
    let rest := runChunks cfg R call_id r.1 cs
    (rest.1, (if r.2.1 then r.2.2.toList else []) ++ rest.2)

/-- The identity function as a concrete instance of the abstract
resampler parameter (used to instantiate universally quantified
statements at concrete inputs). -/
def idResampler : Resampler := fun x => some x

/-! ## `TaskManager` (bot/task_manager/task_manager.py)

The manager juggles `asyncio.Task` handles.  A task handle is modelled by
a numeric id; the ambient event loop's view of which tasks have
terminated (`task.done()`) is carried alongside the manager's own tables
as `statuses`.  Cancelling a task and awaiting it (`task.cancel()` then
`await task`, with `CancelledError` swallowed as a normal outcome and
other exceptions logged) terminates it, i.e. marks it done.  Per-call
locks serialise all slot mutations for one call, so each method body is
one atomic step on this state. -/

structure TMState where
  /-- `self.active_tasks : {call_id: {task_name: asyncio.Task}}` -/
  active_tasks : List (String × List (String × ℕ))
  /-- `self.task_locks` (only key presence matters for the model) -/
  task_locks : List String
  /-- event-loop view: task id ↦ `task.done()` -/
  statuses : List (ℕ × Bool)
  /-- next fresh task id handed out by `asyncio.create_task` -/
  next_id : ℕ
deriving DecidableEq

/-- `task.done()` for a handle (absent handles are treated as running,
which the manager never relies on for handles it created itself). -/
def isDone (st : TMState) (tid : ℕ) : Bool :=
  ((aLookup tid st.statuses).getD false)

/-- Termination of a task after `cancel()` + `await` (or any await that
returns): the handle is done afterwards. -/
def markDone (st : TMState) (tid : ℕ) : TMState :=
  { st with statuses := aInsert tid true st.statuses }

/-- `TaskManager.get_lock`: lazily create the per-call lock entry.  Every
`async with self.get_lock(call_id)` region starts by running this. -/
def get_lock (st : TMState) (call_id : String) : TMState :=
  { st with
      task_locks :=
        if call_id ∈ st.task_locks then st.task_locks else st.task_locks ++ [call_id] }

/-- The occupant of a (call, slot-name) pair, if any. -/
def slotTask (st : TMState) (call_id task_name : String) : Option ℕ :=
  match aLookup call_id st.active_tasks with
  | none => none
  | some slots => aLookup task_name slots

/-- `TaskManager.create_task`: under the call's lock, cancel and await
any existing non-done occupant of the slot, then start the new work as a
fresh task and record it.  Returns the new handle. -/
def create_task (st : TMState) (call_id task_name : String) : TMState × ℕ :=
  let st1 := get_lock st call_id
  let st2 :=
    match slotTask st1 call_id task_name with
    | none => st1
    | some tid => if isDone st1 tid then st1 else markDone st1 tid
  let slots := (aLookup call_id st2.active_tasks).getD []
  let tid := st2.next_id
  ({ st2 with
      active_tasks := aInsert call_id (aInsert task_name tid slots) st2.active_tasks
      statuses := aInsert tid false st2.statuses
      next_id := st2.next_id + 1 }, tid)

/-- The loop of `cleanup_call`: for each slot of the call in order,
cancel and await the task when it is not yet done. -/
def cancelSlots : TMState → List (String × ℕ) → TMState
  | st, [] => st
  | st, p :: rest => cancelSlots (if isDone st p.2 then st else markDone st p.2) rest

/-- `TaskManager.cleanup_call`: under the call's lock, cancel and await
every non-done task of the call, then drop the call's task-table entry.
The lock-table entry is not touched (and is created by the `get_lock`
call itself when absent). -/
def cleanup_call (st : TMState) (call_id : String) : TMState :=
  let st1 := get_lock st call_id
  match aLookup call_id st1.active_tasks with
  | none => st1
  | some slots =>
    let st2 := cancelSlots st1 slots
    { st2 with active_tasks := aErase call_id st2.active_tasks }

/-! ## `SocketManager.send_message` (bot/sockets/socket_manager.py) -/

/-- A JSON value sent as the `data` object (opaque key/value pairs
suffice for the property checked here). -/
abbrev JsonDict := List (String × String)

/-- The structured record built in `send_message`:
`{"type": ..., "data": ..., "to": ..., "timestamp": ...}`. -/
structure OutMessage where
  type : Option String
  data : JsonDict
  /-- the `"to"` key of the JSON record (`to` is reserved in Lean) -/
  toClients : List String
  timestamp : ℤ
deriving DecidableEq

/-- What one `send_message` call pushes onto the channel. -/
inductive Sent where
  | binary (payload : List Byte)
  | text (msg : OutMessage)
deriving DecidableEq

/-- `SocketManager.send_message`.  `ws` is whether `self.websocket` is
non-`None`; `now` is `int(asyncio.get_event_loop().time() * 1000)`.
`Except.error` models the `raise Exception(...)` path, on which nothing
is sent. -/
def send_message (ws : Bool) (msg_type : Option String) (data : Option JsonDict)
    (to_clients : Option (List String)) (raw_audio : Option (List Byte))
    (now : ℤ) : Except String Sent :=
  if ws = false then
    Except.error "No active connection"
  else
    match raw_audio with
    | some payload => Except.ok (Sent.binary payload)
    | none =>
      Except.ok (Sent.text
        { type := msg_type
          data := data.getD []
          toClients := to_clients.getD []
          timestamp := now })

/-! ## Registry and dispatch-flag lemmas -/

theorem get_call_state_of_lookup {states : CallStates} {call_id : String}
    {s : CallState} (h : aLookup call_id states = some s) :
    get_call_state states call_id = (states, s) := by
  simp [get_call_state, h]

/-- The first branch of `process_audio_chunk`: with the `is_processing`
flag set, the chunk is dropped and nothing changes. -/
theorem processChunkCore_skip (cfg : AudioConfig) (R : Resampler) (s : CallState)
    (chunk : List Byte) (hp : s.is_processing = true) :
    processChunkCore cfg R s chunk = (s, false, none) := by
  simp [processChunkCore, hp]

theorem process_audio_chunk_skip (cfg : AudioConfig) (R : Resampler)
    (states : CallStates) (call_id : String) (chunk : List Byte) (s : CallState)
    (hs : aLookup call_id states = some s) (hp : s.is_processing = true) :
    process_audio_chunk cfg R states call_id chunk = (states, false, none) := by
  simp only [process_audio_chunk, get_call_state_of_lookup hs,
    processChunkCore_skip cfg R s chunk hp]
  simp [aInsert_lookup_eq_self hs]

/-- C6: while a session's dispatch flag (`is_processing`) is set, every
incoming chunk is dropped without buffering and without touching any
session state, and `finish_processing` is what clears the flag (leaving
buffer and silence duration as they were, returning the entry to the
idle shape). -/
theorem awaiting_dispatch_drops_chunks (cfg : AudioConfig) (R : Resampler)
    (states : CallStates) (call_id : String) (chunk : List Byte) (s : CallState)
    (hs : aLookup call_id states = some s) (hp : s.is_processing = true) :
    process_audio_chunk cfg R states call_id chunk = (states, false, none) ∧
    finish_processing states call_id =
      aInsert call_id { s with is_processing := false } states ∧
    aLookup call_id (finish_processing states call_id) =
      some { s with is_processing := false } := by
  refine ⟨process_audio_chunk_skip cfg R states call_id chunk s hs hp, ?_, ?_⟩
  · simp [finish_processing, get_call_state_of_lookup hs]
  · simp [finish_processing, get_call_state_of_lookup hs, aLookup_aInsert_self]

/-- Witness for C6 at a concrete dispatched state. -/
theorem awaiting_dispatch_drops_chunks_witness :
    process_audio_chunk defaultConfig idResampler
        [("a", { audio_buffer := [], silent_duration := 0, is_processing := true })]
        "a" [0, 0] =
      ([("a", { audio_buffer := [], silent_duration := 0, is_processing := true })],
        false, none) ∧
    finish_processing
        [("a", { audio_buffer := [], silent_duration := 0, is_processing := true })] "a" =
      [("a", freshCallState)] := by
  have h := awaiting_dispatch_drops_chunks defaultConfig idResampler
    [("a", { audio_buffer := [], silent_duration := 0, is_processing := true })]
    "a" [0, 0] { audio_buffer := [], silent_duration := 0, is_processing := true }
    (by decide) rfl
  refine ⟨h.1, ?_⟩
  rw [h.2.1]
  decide

/-- C9: `get_call_state` is an idempotent open (fresh empty state when
absent, the existing state otherwise) and `cleanup_call_state` is a
close after which the next open starts from the fresh empty state. -/
theorem call_state_registry_contract (states : CallStates) (call_id : String) :
    (aLookup call_id states = none →
      get_call_state states call_id =
        (aInsert call_id freshCallState states, freshCallState)) ∧
    (∀ s, aLookup call_id states = some s →
      get_call_state states call_id = (states, s)) ∧
    (get_call_state (get_call_state states call_id).1 call_id =
      get_call_state states call_id) ∧
    (aLookup call_id (cleanup_call_state states call_id) = none) ∧
    (get_call_state (cleanup_call_state states call_id) call_id =
      (aInsert call_id freshCallState (aErase call_id states), freshCallState)) := by
  refine ⟨?_, ?_, ?_, ?_, ?_⟩
  · intro h
    simp [get_call_state, h, init_call_state]
  · intro s h
    exact get_call_state_of_lookup h
  · cases h : aLookup call_id states with
    | some s =>
      rw [get_call_state_of_lookup h, get_call_state_of_lookup h]
    | none =>
      simp only [get_call_state, h, init_call_state]
      rw [aLookup_aInsert_self]
  · exact aLookup_aErase_self call_id states
  · simp [cleanup_call_state, get_call_state, aLookup_aErase_self, init_call_state]

/-- Witness for C9: open on an empty registry creates the fresh state;
open on an existing entry returns it unchanged. -/
theorem call_state_registry_contract_witness :
    get_call_state [] "a" = ([("a", freshCallState)], freshCallState) ∧
    get_call_state [("a", { audio_buffer := [0], silent_duration := 1, is_processing := true })]
        "a" =
      ([("a", { audio_buffer := [0], silent_duration := 1, is_processing := true })],
        { audio_buffer := [0], silent_duration := 1, is_processing := true }) := by
  constructor
  · have h := (call_state_registry_contract [] "a").1 rfl
    rw [h]
    decide
  · exact (call_state_registry_contract _ "a").2.1 _ (by decide)

/-- C10: `send_message` raises (sending nothing) when there is no active
websocket, and otherwise the structured message sent is exactly
`{type, data or {}, to_clients or [], timestamp}`. -/
theorem send_message_contract (msg_type : Option String) (data : Option JsonDict)
    (to_clients : Option (List String)) (raw_audio : Option (List Byte)) (now : ℤ) :
    (send_message false msg_type data to_clients raw_audio now =
      Except.error "No active connection") ∧
    (raw_audio = none →
      send_message true msg_type data to_clients raw_audio now =
        Except.ok (Sent.text
          { type := msg_type
            data := data.getD []
            toClients := to_clients.getD []
            timestamp := now })) := by
  constructor
  · rfl
  · rintro rfl
    rfl

/-- Witness for C10 at concrete arguments (defaults exercised). -/
theorem send_message_contract_witness :
    send_message false (some "bot_message") none none none 7 =
      Except.error "No active connection" ∧
    send_message true (some "bot_message") none none none 7 =
      Except.ok (Sent.text
        { type := some "bot_message", data := [], toClients := [], timestamp := 7 }) := by
  exact ⟨(send_message_contract (some "bot_message") none none none 7).1,
    (send_message_contract (some "bot_message") none none none 7).2 rfl⟩

/-! ## `TaskManager` lemmas -/

theorem isDone_markDone_self (st : TMState) (tid : ℕ) :
    isDone (markDone st tid) tid = true := by
  simp [isDone, markDone, aLookup_aInsert_self]

theorem isDone_markDone_of_isDone {st : TMState} {tid : ℕ} (t' : ℕ)
    (h : isDone st tid = true) : isDone (markDone st t') tid = true := by
  by_cases he : tid = t'
  · subst he
    exact isDone_markDone_self st tid
  · simpa [isDone, markDone, aLookup_aInsert_ne _ _ he] using h

theorem cancelSlots_isDone_mono (slots : List (String × ℕ)) :
    ∀ (st : TMState) (tid : ℕ), isDone st tid = true →
      isDone (cancelSlots st slots) tid = true := by
  induction slots with
  | nil => intro st tid h; exact h
  | cons q rest ih =>
    intro st tid h
    simp only [cancelSlots]
    apply ih
    by_cases hd : isDone st q.2 = true
    · simpa [hd] using h
    · simp only [Bool.not_eq_true] at hd
      simpa [hd] using isDone_markDone_of_isDone q.2 h

theorem cancelSlots_done (slots : List (String × ℕ)) :
    ∀ (st : TMState) (p : String × ℕ), p ∈ slots →
      isDone (cancelSlots st slots) p.2 = true := by
  induction slots with
  | nil => intro st p h; cases h
  | cons q rest ih =>
    intro st p h
    rcases List.mem_cons.mp h with he | hm
    · subst he
      simp only [cancelSlots]
      apply cancelSlots_isDone_mono
      by_cases hd : isDone st p.2 = true
      · simp [hd]
      · simp only [Bool.not_eq_true] at hd
        simpa [hd] using isDone_markDone_self st p.2
    · simp only [cancelSlots]
      exact ih _ p hm

theorem cancelSlots_active (slots : List (String × ℕ)) :
    ∀ st : TMState, (cancelSlots st slots).active_tasks = st.active_tasks := by
  induction slots with
  | nil => intro st; rfl
  | cons q rest ih =>
    intro st
    simp only [cancelSlots]
    rw [ih]
    by_cases hd : isDone st q.2 = true <;> simp [hd, markDone]

theorem cancelSlots_locks (slots : List (String × ℕ)) :
    ∀ st : TMState, (cancelSlots st slots).task_locks = st.task_locks := by
  induction slots with
  | nil => intro st; rfl
  | cons q rest ih =>
    intro st
    simp only [cancelSlots]
    rw [ih]
    by_cases hd : isDone st q.2 = true <;> simp [hd, markDone]

theorem slotTask_get_lock (st : TMState) (c c' n : String) :
    slotTask (get_lock st c') c n = slotTask st c n := rfl

theorem get_lock_next (st : TMState) (c : String) :
    (get_lock st c).next_id = st.next_id := rfl

theorem get_lock_active (st : TMState) (c : String) :
    (get_lock st c).active_tasks = st.active_tasks := rfl

theorem get_lock_statuses (st : TMState) (c : String) :
    (get_lock st c).statuses = st.statuses := rfl

/-- C2: `create_task` returns the fresh (running) task recorded as the
unique occupant of the (call, slot-name) pair, and the previous occupant,
if it had not yet terminated, was cancelled and awaited — hence is done —
before the new task was recorded (cancellation swallowed as a normal
outcome; the whole body runs under the call's lock, so it is one atomic
step and the pair never holds two live handles). -/
theorem create_task_single_occupant (st : TMState) (call_id task_name : String) :
    (create_task st call_id task_name).2 = st.next_id ∧
    slotTask (create_task st call_id task_name).1 call_id task_name = some st.next_id ∧
    isDone (create_task st call_id task_name).1 st.next_id = false ∧
    (∀ old, slotTask st call_id task_name = some old → old < st.next_id →
      isDone (create_task st call_id task_name).1 old = true) := by
  cases hslot : slotTask st call_id task_name with
  | none =>
    simp only [create_task, slotTask_get_lock, hslot]
    refine ⟨?_, ?_, ?_, ?_⟩
    · exact get_lock_next st call_id
    · simp [slotTask, aLookup_aInsert_self, get_lock_next]
    · simp [isDone, get_lock_next, aLookup_aInsert_self]
    · intro old h
      cases h
  | some tid =>
    simp only [create_task, slotTask_get_lock, hslot]
    by_cases hd : isDone (get_lock st call_id) tid = true
    · simp only [hd, if_true]
      refine ⟨?_, ?_, ?_, ?_⟩
      · exact get_lock_next st call_id
      · simp [slotTask, aLookup_aInsert_self, get_lock_next]
      · simp [isDone, get_lock_next, aLookup_aInsert_self]
      · intro old h hlt
        injection h with h2
        subst h2
        have hne : tid ≠ st.next_id := Nat.ne_of_lt hlt
        simp only [isDone, get_lock_next, get_lock_statuses]
        rw [aLookup_aInsert_ne _ _ hne]
        simpa [isDone, get_lock_statuses] using hd
    · simp only [Bool.not_eq_true] at hd
      simp only [hd, Bool.false_eq_true, if_false]
      refine ⟨?_, ?_, ?_, ?_⟩
      · exact get_lock_next st call_id
      · simp [slotTask, markDone, aLookup_aInsert_self, get_lock_next]
      · simp [isDone, markDone, get_lock_next, aLookup_aInsert_self]
      · intro old h hlt
        injection h with h2
        subst h2
        have hne : tid ≠ st.next_id := Nat.ne_of_lt hlt
        simp only [isDone, markDone, get_lock_next, get_lock_statuses]
        rw [aLookup_aInsert_ne _ _ hne]
        simpa [isDone, markDone, get_lock_statuses] using isDone_markDone_self (get_lock st call_id) tid

/-- A populated manager: one running task (id 0) in the default slot of
call "a", with the call's lock created. -/
def tmEx : TMState :=
  { active_tasks := [("a", [("audio_process", 0)])]
    task_locks := ["a"]
    statuses := [(0, false)]
    next_id := 1 }

/-- Witness for C2 on `tmEx`: the new task 1 is the sole occupant and the
old task 0 is done. -/
theorem create_task_single_occupant_witness :
    (create_task tmEx "a" "audio_process").2 = 1 ∧
    slotTask (create_task tmEx "a" "audio_process").1 "a" "audio_process" = some 1 ∧
    isDone (create_task tmEx "a" "audio_process").1 1 = false ∧
    isDone (create_task tmEx "a" "audio_process").1 0 = true := by
  have h := create_task_single_occupant tmEx "a" "audio_process"
  exact ⟨h.1, h.2.1, h.2.2.1, h.2.2.2 0 (by decide) (by decide)⟩

/-- C7 (amended): `cleanup_call` empties the call's entry in the task
table and every task that occupied one of the call's slots has been
cancelled and awaited (is done); but the per-call lock entry in
`task_locks` is NOT removed — it survives teardown (and is created by
the call itself when absent), so the supervisor's tables are not fully
free of the session key. -/
theorem cleanup_call_effect (st : TMState) (call_id : String) :
    aLookup call_id (cleanup_call st call_id).active_tasks = none ∧
    (∀ task_name tid, slotTask st call_id task_name = some tid →
      isDone (cleanup_call st call_id) tid = true) ∧
    (cleanup_call st call_id).task_locks = (get_lock st call_id).task_locks := by
  cases h : aLookup call_id st.active_tasks with
  | none =>
    have h1 : aLookup call_id (get_lock st call_id).active_tasks = none := h
    refine ⟨?_, ?_, ?_⟩
    · simp only [cleanup_call, h1]
    · intro n tid hslot
      exfalso
      simp [slotTask, h] at hslot
    · simp only [cleanup_call, h1]
  | some slots =>
    have h1 : aLookup call_id (get_lock st call_id).active_tasks = some slots := h
    refine ⟨?_, ?_, ?_⟩
    · simp only [cleanup_call, h1]
      exact aLookup_aErase_self call_id _
    · intro n tid hslot
      have hmem : (n, tid) ∈ slots := by
        simp only [slotTask, h] at hslot
        exact aLookup_mem hslot
      simp only [cleanup_call, h1]
      simpa [isDone] using cancelSlots_done slots (get_lock st call_id) (n, tid) hmem
    · simp only [cleanup_call, h1]
      exact cancelSlots_locks slots (get_lock st call_id)

/-- Witness for C7's amended theorem on `tmEx`: the task entry for "a" is
gone and its task 0 is done. -/
theorem cleanup_call_effect_witness :
    aLookup "a" (cleanup_call tmEx "a").active_tasks = none ∧
    isDone (cleanup_call tmEx "a") 0 = true := by
  exact ⟨(cleanup_call_effect tmEx "a").1,
    (cleanup_call_effect tmEx "a").2.1 "audio_process" 0 (by decide)⟩

/-- Counterexample to C7 as stated: after tearing down call "a", the
supervisor still holds a `task_locks` entry keyed by "a" — teardown does
not leave the tables free of residual entries for the session. -/
theorem cleanup_call_lock_residual : "a" ∈ (cleanup_call tmEx "a").task_locks := by
  decide

/-- C8 (amended): `cleanup_call` on a call with no task entry raises no
error; if the call's lock already exists (as after a prior teardown) the
state is returned exactly unchanged, but for a key never seen before the
call mutates the supervisor by lazily creating that key's lock entry. -/
theorem cleanup_call_no_tasks (st : TMState) (call_id : String)
    (h : aLookup call_id st.active_tasks = none) :
    cleanup_call st call_id = get_lock st call_id ∧
    (call_id ∈ st.task_locks → cleanup_call st call_id = st) := by
  have h1 : aLookup call_id (get_lock st call_id).active_tasks = none := h
  constructor
  · simp only [cleanup_call, h1]
  · intro hm
    have hfirst : cleanup_call st call_id = get_lock st call_id := by
      simp only [cleanup_call, h1]
    rw [hfirst]
    simp [get_lock, hm]

/-- Witness for C8's amended theorem: a second teardown of the
already-closed call "a" (its lock persists from the first) is a no-op. -/
theorem cleanup_call_no_tasks_witness :
    cleanup_call
        { active_tasks := [], task_locks := ["a"], statuses := [], next_id := 0 } "a" =
      { active_tasks := [], task_locks := ["a"], statuses := [], next_id := 0 } := by
  exact (cleanup_call_no_tasks
    { active_tasks := [], task_locks := ["a"], statuses := [], next_id := 0 } "a" rfl).2
    (by decide)

/-- The manager state right after `TaskManager.__init__`. -/
def tmEmpty : TMState :=
  { active_tasks := [], task_locks := [], statuses := [], next_id := 0 }

/-- Counterexample to C8 as stated: calling `cleanup_call` on a session
key that was never open does NOT leave the supervisor's observable state
as it was — `get_lock` creates a lock entry for the key. -/
theorem cleanup_call_never_open_mutates : cleanup_call tmEmpty "a" ≠ tmEmpty := by
  decide

/-! ## `process_audio_chunk`: error path, ready path, silence paths -/

/-- C4 (amended): when the chunk's own decode or resample raises, the
call reports no decision (not-ready, no buffer) and leaves the silence
duration and dispatch flag unchanged — but the chunk's bytes HAVE
already been appended to the accumulator, because the source extends the
buffer before entering the `try` block. -/
theorem process_audio_chunk_error_effect (cfg : AudioConfig) (R : Resampler)
    (states : CallStates) (call_id : String) (chunk : List Byte) (s : CallState)
    (hs : aLookup call_id states = some s) (hp : s.is_processing = false)
    (herr : decodeInt16 chunk = none ∨
      ∃ ints, decodeInt16 chunk = some ints ∧ R (toFloat ints) = none) :
    process_audio_chunk cfg R states call_id chunk =
      (aInsert call_id { s with audio_buffer := s.audio_buffer ++ chunk } states,
        false, none) := by
  have hcore : processChunkCore cfg R s chunk =
      ({ s with audio_buffer := s.audio_buffer ++ chunk }, false, none) := by
    rcases herr with hdec | ⟨ints, hdec, hR⟩
    · simp only [processChunkCore, hp, Bool.false_eq_true, if_false, hdec]
    · simp only [processChunkCore, hp, Bool.false_eq_true, if_false, hdec, hR]
  simp only [process_audio_chunk, get_call_state_of_lookup hs, hcore]

/-- Witness for C4's amended theorem: a one-byte (odd-length) chunk. -/
theorem process_audio_chunk_error_effect_witness :
    process_audio_chunk defaultConfig idResampler [("c", freshCallState)] "c" [0] =
      ([("c", { audio_buffer := [0], silent_duration := 0, is_processing := false })],
        false, none) := by
  have h := process_audio_chunk_error_effect defaultConfig idResampler
    [("c", freshCallState)] "c" [0] freshCallState (by decide) rfl (Or.inl rfl)
  rw [h]
  decide

/-- Counterexample to C4 as stated: on a malformed (odd-length) chunk the
call does return not-ready with no buffer, but the session's byte
accumulator is NOT left unchanged — the failed chunk's bytes are in it. -/
theorem failed_chunk_buffer_changed :
    (process_audio_chunk defaultConfig idResampler [("c", freshCallState)] "c" [0]).2.1
        = false ∧
    (process_audio_chunk defaultConfig idResampler [("c", freshCallState)] "c" [0]).2.2
        = none ∧
    (process_audio_chunk defaultConfig idResampler [("c", freshCallState)] "c" [0]).1
        ≠ [("c", freshCallState)] := by
  decide

/-- C1: when, after appending the chunk, the updated silence duration
reaches the threshold, the accumulator exceeds the minimum buffer
length, and the resampled full buffer's peak amplitude is at least the
silence threshold, `process_audio_chunk` reports ready exactly once,
carrying exactly the bytes accumulated since the last reset (prior
buffer plus this chunk); immediately afterwards the stored accumulator
is empty, the silence duration is zero and the dispatch flag is set —
so every further chunk is dropped until `finish_processing`. -/
theorem process_audio_chunk_ready (cfg : AudioConfig) (R : Resampler)
    (states : CallStates) (call_id : String) (chunk : List Byte) (s : CallState)
    (ints fints : List ℤ) (y fy : List ℚ) (m : ℚ)
    (hs : aLookup call_id states = some s) (hp : s.is_processing = false)
    (hdec : decodeInt16 chunk = some ints) (hR : R (toFloat ints) = some y)
    (hsd : (cfg.silence_duration_ms : ℚ) / 1000 ≤
      (if energyLt y cfg.silence_threshold then
        s.silent_duration +
          ((chunk.length / (bytes_per_sample * channels) : ℕ) : ℚ) /
            (cfg.original_sample_rate : ℚ)
      else 0))
    (hlen : (cfg.target_sample_rate : ℚ) * cfg.min_buffer_duration_s * 2 <
      (((s.audio_buffer ++ chunk).length : ℕ) : ℚ))
    (hdecF : decodeInt16 (s.audio_buffer ++ chunk) = some fints)
    (hRF : R (toFloat fints) = some fy)
    (hmax : maxAbs fy = some m)
    (hpeak : cfg.silence_threshold ≤ m) :
    process_audio_chunk cfg R states call_id chunk =
      (aInsert call_id
          { audio_buffer := [], silent_duration := 0, is_processing := true } states,
        true, some (s.audio_buffer ++ chunk)) ∧
    ∀ chunk2, process_audio_chunk cfg R
        (aInsert call_id
          { audio_buffer := [], silent_duration := 0, is_processing := true } states)
        call_id chunk2 =
      (aInsert call_id
          { audio_buffer := [], silent_duration := 0, is_processing := true } states,
        false, none) := by
  have hcore : processChunkCore cfg R s chunk =
      ({ audio_buffer := [], silent_duration := 0, is_processing := true },
        true, some (s.audio_buffer ++ chunk)) := by
    simp only [processChunkCore, hp, Bool.false_eq_true, if_false, hdec, hR]
    rw [if_pos (And.intro hsd hlen)]
    rw [hdecF]
    simp only [hRF, hmax]
    rw [if_neg (not_lt.mpr hpeak)]
  constructor
  · simp only [process_audio_chunk, get_call_state_of_lookup hs, hcore]
  · intro chunk2
    exact process_audio_chunk_skip cfg R _ call_id chunk2 _
      (aLookup_aInsert_self call_id _ states) rfl

/-- A minimal configuration (rates 1/1, zero thresholds) for exercising
the ready path on tiny inputs. -/
def cfgTiny : AudioConfig :=
  { original_sample_rate := 1
    target_sample_rate := 1
    silence_threshold := 0
    silence_duration_ms := 0
    min_buffer_duration_s := 0 }

/-- Witness for C1: one two-byte chunk trips all three gates under
`cfgTiny`; the call returns ready with the accumulated bytes, and the
next chunk is dropped. -/
theorem process_audio_chunk_ready_witness :
    process_audio_chunk cfgTiny idResampler [("a", freshCallState)] "a" [0, 0] =
      ([("a", { audio_buffer := [], silent_duration := 0, is_processing := true })],
        true, some [0, 0]) ∧
    process_audio_chunk cfgTiny idResampler
        [("a", { audio_buffer := [], silent_duration := 0, is_processing := true })]
        "a" [0, 0] =
      ([("a", { audio_buffer := [], silent_duration := 0, is_processing := true })],
        false, none) := by
  have h := process_audio_chunk_ready cfgTiny idResampler [("a", freshCallState)] "a"
    [0, 0] freshCallState [0] [0] [0] [0] 0 (by decide) rfl (by decide)
    (by norm_num [idResampler, toFloat])
    (by norm_num [energyLt, rmsSq, sumSq, cfgTiny, freshCallState, bytes_per_sample,
      channels])
    (by norm_num [cfgTiny, freshCallState])
    (by decide)
    (by norm_num [idResampler, toFloat])
    (by norm_num [maxAbs])
    (by norm_num [cfgTiny])
  have e : aInsert "a"
      { audio_buffer := [], silent_duration := 0, is_processing := true }
      [("a", freshCallState)] =
      [("a", { audio_buffer := [], silent_duration := 0, is_processing := true })] := by
    simp [aInsert]
  constructor
  · rw [h.1, e]
    rfl
  · have h2 := h.2 [0, 0]
    rw [e] at h2
    exact h2

theorem foldl_max_lt {t : ℚ} :
    ∀ (l : List ℚ) (b : ℚ), b < t → (∀ v ∈ l, v < t) → l.foldl max b < t := by
  intro l
  induction l with
  | nil =>
    intro b hb _
    simpa using hb
  | cons a l ih =>
    intro b hb h
    simp only [List.foldl_cons]
    exact ih (max b a) (max_lt hb (h a (List.mem_cons_self a l)))
      (fun v hv => h v (List.mem_cons_of_mem a hv))

theorem maxAbs_lt_of_forall {xs : List ℚ} {t m : ℚ}
    (h : ∀ v ∈ xs, |v| < t) (hm : maxAbs xs = some m) : m < t := by
  cases xs with
  | nil => simp [maxAbs] at hm
  | cons x l =>
    simp only [maxAbs, Option.some.injEq] at hm
    subst hm
    apply foldl_max_lt
    · exact h x (List.mem_cons_self x l)
    · intro v hv
      obtain ⟨u, hu, rfl⟩ := List.mem_map.mp hv
      exact h u (List.mem_cons_of_mem x hu)

/-- If every signal the resampler can produce stays strictly below the
silence threshold in absolute value, no single call ever returns a
`True` verdict. -/
theorem processChunkCore_not_ready (cfg : AudioConfig) (R : Resampler) (s : CallState)
    (chunk : List Byte)
    (hR : ∀ x ys, R x = some ys → ∀ v ∈ ys, |v| < cfg.silence_threshold) :
    (processChunkCore cfg R s chunk).2.1 = false := by
  unfold processChunkCore
  dsimp only
  repeat' split
  all_goals
    first
    | rfl
    | exact absurd (maxAbs_lt_of_forall (hR _ _ (by assumption)) (by assumption))
        (by assumption)

theorem runChunks_silent (cfg : AudioConfig) (R : Resampler) (call_id : String)
    (hR : ∀ x ys, R x = some ys → ∀ v ∈ ys, |v| < cfg.silence_threshold) :
    ∀ (chunks : List (List Byte)) (states : CallStates),
      (runChunks cfg R call_id states chunks).2 = [] := by
  intro chunks
  induction chunks with
  | nil =>
    intro states
    rfl
  | cons c cs ih =>
    intro states
    simp only [runChunks]
    have hstep : (process_audio_chunk cfg R states call_id c).2.1 = false := by
      simp only [process_audio_chunk]
      exact processChunkCore_not_ready cfg R _ c hR
    simp [hstep, ih]

/-- C5: a stream whose audio stays below the silence threshold never
produces a ready segment, however long it runs; and whenever the
duration and length gates are met but the resampled full buffer's peak
amplitude is below the silence threshold, the call discards the buffer
(accumulator emptied, silence duration zeroed) and signals no segment. -/
theorem silent_stream_never_ready (cfg : AudioConfig) (R : Resampler) :
    (∀ (states : CallStates) (call_id : String) (chunk : List Byte) (s : CallState)
      (ints fints : List ℤ) (y fy : List ℚ) (m : ℚ),
      aLookup call_id states = some s → s.is_processing = false →
      decodeInt16 chunk = some ints → R (toFloat ints) = some y →
      (cfg.silence_duration_ms : ℚ) / 1000 ≤
        (if energyLt y cfg.silence_threshold then
          s.silent_duration +
            ((chunk.length / (bytes_per_sample * channels) : ℕ) : ℚ) /
              (cfg.original_sample_rate : ℚ)
        else 0) →
      (cfg.target_sample_rate : ℚ) * cfg.min_buffer_duration_s * 2 <
        (((s.audio_buffer ++ chunk).length : ℕ) : ℚ) →
      decodeInt16 (s.audio_buffer ++ chunk) = some fints →
      R (toFloat fints) = some fy → maxAbs fy = some m →
      m < cfg.silence_threshold →
      process_audio_chunk cfg R states call_id chunk =
        (aInsert call_id
            { audio_buffer := [], silent_duration := 0, is_processing := false } states,
          false, none)) ∧
    ((∀ x ys, R x = some ys → ∀ v ∈ ys, |v| < cfg.silence_threshold) →
      ∀ (call_id : String) (chunks : List (List Byte)) (states : CallStates),
        (runChunks cfg R call_id states chunks).2 = []) := by
  constructor
  · intro states call_id chunk s ints fints y fy m hs hp hdec hRc hsd hlen hdecF hRF
      hmax hmlt
    have hcore : processChunkCore cfg R s chunk =
        ({ audio_buffer := [], silent_duration := 0, is_processing := false },
          false, none) := by
      simp only [processChunkCore, hp, Bool.false_eq_true, if_false, hdec, hRc]
      rw [if_pos (And.intro hsd hlen)]
      rw [hdecF]
      simp only [hRF, hmax]
      rw [if_pos hmlt]
    simp only [process_audio_chunk, get_call_state_of_lookup hs, hcore]
  · intro hR call_id chunks states
    exact runChunks_silent cfg R call_id hR chunks states

/-- A small configuration with silence threshold 1 (everything quieter
than full scale counts as silent). -/
def cfgSil : AudioConfig :=
  { original_sample_rate := 1
    target_sample_rate := 1
    silence_threshold := 1
    silence_duration_ms := 0
    min_buffer_duration_s := 0 }

/-- A resampler producing the empty signal, trivially below threshold. -/
def nilResampler : Resampler := fun _ => some []

/-- Witness for C5: the reset branch fires on a quiet two-byte chunk
under `cfgSil` (buffer discarded, nothing dispatched), and a silent
stream through `nilResampler` yields no events. -/
theorem silent_stream_never_ready_witness :
    process_audio_chunk cfgSil idResampler [("a", freshCallState)] "a" [0, 0] =
      ([("a", freshCallState)], false, none) ∧
    (runChunks cfgSil nilResampler "a" [] [[0, 0], [0, 0]]).2 = [] := by
  constructor
  · have h := (silent_stream_never_ready cfgSil idResampler).1
      [("a", freshCallState)] "a" [0, 0] freshCallState [0] [0] [0] [0] 0
      (by decide) rfl (by decide)
      (by norm_num [idResampler, toFloat])
      (by norm_num [energyLt, rmsSq, sumSq, cfgSil, freshCallState, bytes_per_sample,
        channels])
      (by norm_num [cfgSil, freshCallState])
      (by decide)
      (by norm_num [idResampler, toFloat])
      (by norm_num [maxAbs])
      (by norm_num [cfgSil])
    rw [h]
    simp [aInsert, freshCallState]
  · exact (silent_stream_never_ready cfgSil nilResampler).2
      (by intro x ys h v hv; cases h; cases hv) "a" [[0, 0], [0, 0]] []

/-! ## The concrete default-configuration scenario (spec §8) -/

theorem join_rep2_length (n : ℕ) (a b : Byte) :
    (List.replicate n [a, b]).flatten.length = 2 * n := by
  induction n with
  | zero => rfl
  | succ k ih =>
    simp only [List.replicate_succ, List.flatten_cons, List.length_append, ih,
      List.length_cons, List.length_nil]
    ring

theorem join_rep2_decode (n : ℕ) (a b : Byte) :
    decodeInt16 (List.replicate n [a, b]).flatten =
      some (List.replicate n (toSigned (a.val + 256 * b.val))) := by
  induction n with
  | zero => rfl
  | succ k ih =>
    rw [List.replicate_succ, List.flatten_cons]
    show decodeInt16 (a :: b :: (List.replicate k [a, b]).flatten) =
      some (List.replicate (k + 1) (toSigned (a.val + 256 * b.val)))
    simp only [decodeInt16, ih, Option.map_some', List.replicate_succ]

theorem decode_append {ys : List Byte} {bs : List ℤ}
    (hy : decodeInt16 ys = some bs) :
    ∀ (xs : List Byte) (as : List ℤ), decodeInt16 xs = some as →
      decodeInt16 (xs ++ ys) = some (as ++ bs) := by
  intro xs
  induction xs using decodeInt16.induct with
  | case1 =>
    intro as h
    simp only [decodeInt16, Option.some_inj] at h
    subst h
    simpa using hy
  | case2 a =>
    intro as h
    rw [show decodeInt16 [a] = none from rfl] at h
    exact Option.noConfusion h
  | case3 lo hi rest ih =>
    intro as h
    have hstep : decodeInt16 (lo :: hi :: rest) =
        (decodeInt16 rest).map (fun xs => toSigned (lo.val + 256 * hi.val) :: xs) := rfl
    rw [hstep] at h
    cases hrest : decodeInt16 rest with
    | none =>
      rw [hrest] at h
      exact Option.noConfusion h
    | some cs =>
      rw [hrest] at h
      simp only [Option.map_some', Option.some_inj] at h
      subst h
      have hr := ih cs hrest
      have hstep2 : decodeInt16 (lo :: hi :: (rest ++ ys)) =
          (decodeInt16 (rest ++ ys)).map (fun xs => toSigned (lo.val + 256 * hi.val) :: xs) := rfl
    
      show decodeInt16 (lo :: hi :: (rest ++ ys)) =
        some ((toSigned (lo.val + 256 * hi.val) :: cs) ++ bs)
      rw [hstep2, hr]
      simp only [Option.map_some', List.cons_append]

theorem toFloat_replicate (n : ℕ) (v : ℤ) :
    toFloat (List.replicate n v) = List.replicate n ((v : ℚ) / 32768) := by
  simp only [toFloat, List.map_replicate]

theorem sumSq_replicate (n : ℕ) (c : ℚ) :
    sumSq (List.replicate n c) = n * c ^ 2 := by
  induction n with
  | zero => simp [sumSq]
  | succ k ih =>
    simp only [List.replicate_succ, sumSq, List.map_cons, List.sum_cons] at *
    rw [ih]
    push_cast
    ring

theorem foldl_max_rep_le (n : ℕ) (b a : ℚ) (h : a ≤ b) :
    List.foldl max b (List.replicate n a) = b := by
  induction n with
  | zero => rfl
  | succ k ih =>
    simp only [List.replicate_succ, List.foldl_cons, max_eq_left h, ih]

theorem maxAbs_rep_append (n m : ℕ) (c : ℚ) (hc : 0 ≤ c) :
    maxAbs (List.replicate (n + 1) c ++ List.replicate m (0 : ℚ)) = some c := by
  simp only [List.replicate_succ, List.cons_append, maxAbs]
  rw [List.map_append, List.map_replicate, List.map_replicate, List.foldl_append]
  rw [abs_of_nonneg hc, abs_zero]
  rw [foldl_max_rep_le n c c le_rfl, foldl_max_rep_le m c 0 hc]

/-- Half a second of above-threshold audio at 48 kHz: 24000 constant
samples of amplitude 16384 (half full scale), bytes `[0x00, 0x40]`. -/
def speechChunk : List Byte := (List.replicate 24000 [(0 : Byte), 64]).flatten

/-- Two seconds of digital silence at 48 kHz: 96000 zero samples. -/
def silenceChunk : List Byte := (List.replicate 96000 [(0 : Byte), 0]).flatten

theorem speech_decode :
    decodeInt16 speechChunk = some (List.replicate 24000 (16384 : ℤ)) := by
  have h : toSigned ((0 : Byte).val + 256 * (64 : Byte).val) = 16384 := by decide
  rw [speechChunk, join_rep2_decode, h]

theorem silence_decode :
    decodeInt16 silenceChunk = some (List.replicate 96000 (0 : ℤ)) := by
  have h : toSigned ((0 : Byte).val + 256 * (0 : Byte).val) = 0 := by decide
  rw [silenceChunk, join_rep2_decode, h]

theorem speech_length : speechChunk.length = 48000 := by
  rw [speechChunk, join_rep2_length]

theorem silence_length : silenceChunk.length = 192000 := by
  rw [silenceChunk, join_rep2_length]

theorem speech_toFloat :
    toFloat (List.replicate 24000 (16384 : ℤ)) = List.replicate 24000 ((1 : ℚ) / 2) := by
  rw [toFloat_replicate]
  norm_num

theorem silence_toFloat :
    toFloat (List.replicate 96000 (0 : ℤ)) = List.replicate 96000 ((0 : ℚ)) := by
  rw [toFloat_replicate]
  norm_num

/-- The speech chunk's RMS energy is not below the 0.02 threshold. -/
theorem speech_energy :
    energyLt (toFloat (List.replicate 24000 (16384 : ℤ)))
      defaultConfig.silence_threshold = false := by
  rw [speech_toFloat]
  have h1 : ¬ (rmsSq (List.replicate 24000 ((1 : ℚ) / 2)) < ((1 : ℚ) / 50) ^ 2) := by
    unfold rmsSq
    rw [sumSq_replicate, List.length_replicate]
    norm_num
  have he : (List.replicate 24000 ((1 : ℚ) / 2)).isEmpty = false := rfl
  simp only [defaultConfig]
  simp only [energyLt, he, Bool.not_false, Bool.true_and, decide_eq_false h1,
    Bool.and_false]

/-- The silence chunk's RMS energy is below the 0.02 threshold. -/
theorem silence_energy :
    energyLt (toFloat (List.replicate 96000 (0 : ℤ)))
      defaultConfig.silence_threshold = true := by
  rw [silence_toFloat]
  have h1 : rmsSq (List.replicate 96000 ((0 : ℚ))) < ((1 : ℚ) / 50) ^ 2 := by
    unfold rmsSq
    rw [sumSq_replicate, List.length_replicate]
    norm_num
  have h2 : (0 : ℚ) ≤ 1 / 50 := by norm_num
  have he : (List.replicate 96000 ((0 : ℚ))).isEmpty = false := rfl
  simp only [defaultConfig]
  simp only [energyLt, he, Bool.not_false, Bool.true_and, decide_eq_true h1,
    decide_eq_true h2, Bool.and_self]

theorem toFloat_append (as bs : List ℤ) :
    toFloat (as ++ bs) = toFloat as ++ toFloat bs := by
  simp [toFloat]

theorem aInsert_cons_self {α β : Type} [DecidableEq α] (k : α) (v v' : β)
    (rest : List (α × β)) : aInsert k v ((k, v') :: rest) = (k, v) :: rest := by
  simp [aInsert]

theorem aLookup_cons_self {α β : Type} [DecidableEq α] (k : α) (v : β)
    (rest : List (α × β)) : aLookup k ((k, v) :: rest) = some v := by
  simp [aLookup]

/-- General evaluation of one `process_audio_chunk` body when the
silence/length gate does not fire: the chunk is buffered (`buf` is the
appended accumulator), the silence duration becomes `sd`, nothing is
dispatched. -/
theorem processChunkCore_no_gate (cfg : AudioConfig) (R : Resampler) (s : CallState)
    (chunk buf : List Byte) (ints : List ℤ) (y : List ℚ) (sd : ℚ)
    (hp : s.is_processing = false)
    (hdec : decodeInt16 chunk = some ints) (hR : R (toFloat ints) = some y)
    (hbuf : s.audio_buffer ++ chunk = buf)
    (hsil : (if energyLt y cfg.silence_threshold then
        s.silent_duration +
          ((chunk.length / (bytes_per_sample * channels) : ℕ) : ℚ) /
            (cfg.original_sample_rate : ℚ)
      else 0) = sd)
    (hgate : ¬ ((cfg.silence_duration_ms : ℚ) / 1000 ≤ sd ∧
      (cfg.target_sample_rate : ℚ) * cfg.min_buffer_duration_s * 2 <
        ((buf.length : ℕ) : ℚ))) :
    processChunkCore cfg R s chunk =
      ({ audio_buffer := buf, silent_duration := sd, is_processing := false },
        false, none) := by
  simp only [processChunkCore, hp, Bool.false_eq_true, if_false, hdec, hR, hbuf, hsil]
  rw [if_neg hgate]

/-- General evaluation of one `process_audio_chunk` body when the gate
fires and the full buffer's peak passes the threshold: dispatch of the
appended accumulator `buf`. -/
theorem processChunkCore_ready_buf (cfg : AudioConfig) (R : Resampler) (s : CallState)
    (chunk buf : List Byte) (ints fints : List ℤ) (y fy : List ℚ) (sd m : ℚ)
    (hp : s.is_processing = false)
    (hdec : decodeInt16 chunk = some ints) (hR : R (toFloat ints) = some y)
    (hbuf : s.audio_buffer ++ chunk = buf)
    (hsil : (if energyLt y cfg.silence_threshold then
        s.silent_duration +
          ((chunk.length / (bytes_per_sample * channels) : ℕ) : ℚ) /
            (cfg.original_sample_rate : ℚ)
      else 0) = sd)
    (hsd : (cfg.silence_duration_ms : ℚ) / 1000 ≤ sd)
    (hlen : (cfg.target_sample_rate : ℚ) * cfg.min_buffer_duration_s * 2 <
      ((buf.length : ℕ) : ℚ))
    (hdecF : decodeInt16 buf = some fints)
    (hRF : R (toFloat fints) = some fy)
    (hmax : maxAbs fy = some m)
    (hpeak : cfg.silence_threshold ≤ m) :
    processChunkCore cfg R s chunk =
      ({ audio_buffer := [], silent_duration := 0, is_processing := true },
        true, some buf) := by
  simp only [processChunkCore, hp, Bool.false_eq_true, if_false, hdec, hR, hbuf, hsil]
  rw [if_pos (And.intro hsd hlen)]
  rw [hdecF]
  simp only [hRF, hmax]
  rw [if_neg (not_lt.mpr hpeak)]

/-- The speech chunk, resampled by the identity, is above threshold. -/
theorem speech_energy_float :
    energyLt (List.replicate 24000 ((1 : ℚ) / 2)) defaultConfig.silence_threshold =
      false := by
  rw [← speech_toFloat]
  exact speech_energy

/-- The silence chunk, resampled by the identity, is below threshold. -/
theorem silence_energy_float :
    energyLt (List.replicate 96000 ((0 : ℚ))) defaultConfig.silence_threshold =
      true := by
  rw [← silence_toFloat]
  exact silence_energy

/-- First scenario step: feeding the speech chunk to a fresh call buffers
it; the energy gate resets the silence duration and no segment fires. -/
theorem c3_step1 :
    process_audio_chunk defaultConfig idResampler [] "call" speechChunk =
      ([("call", { audio_buffer := speechChunk, silent_duration := 0, is_processing := false })],
        false, none) := by
  have hR : idResampler (toFloat (List.replicate 24000 (16384 : ℤ))) =
      some (List.replicate 24000 ((1 : ℚ) / 2)) := by
    simp only [idResampler, speech_toFloat]
  have hbuf : freshCallState.audio_buffer ++ speechChunk = speechChunk := by
    show [] ++ speechChunk = speechChunk
    exact List.nil_append speechChunk
  have hsil : (if energyLt (List.replicate 24000 ((1 : ℚ) / 2))
        defaultConfig.silence_threshold then
      freshCallState.silent_duration +
        ((speechChunk.length / (bytes_per_sample * channels) : ℕ) : ℚ) /
          (defaultConfig.original_sample_rate : ℚ)
    else 0) = 0 := by
    rw [if_neg]
    rw [speech_energy_float]
    simp
  have hgate : ¬ ((defaultConfig.silence_duration_ms : ℚ) / 1000 ≤ 0 ∧
      (defaultConfig.target_sample_rate : ℚ) * defaultConfig.min_buffer_duration_s * 2 <
        ((speechChunk.length : ℕ) : ℚ)) := by
    rintro ⟨h1, -⟩
    simp only [defaultConfig] at h1
    norm_num at h1
  have hcore := processChunkCore_no_gate defaultConfig idResampler freshCallState
    speechChunk speechChunk (List.replicate 24000 (16384 : ℤ))
    (List.replicate 24000 ((1 : ℚ) / 2)) 0
    rfl speech_decode hR hbuf hsil hgate
  have hget : get_call_state [] "call" = ([("call", freshCallState)], freshCallState) := rfl
  simp only [process_audio_chunk, hget, hcore, aInsert_cons_self]

/-- Second scenario step: after 0.5 s of speech, a 2 s silence chunk
trips the silence gate; the buffer (240000 bytes > the 64000-byte
minimum) passes the peak check, so the whole accumulated segment is
dispatched and the state moves to dispatch-pending. -/
theorem c3_step2 :
    process_audio_chunk defaultConfig idResampler
        [("call", { audio_buffer := speechChunk, silent_duration := 0, is_processing := false })]
        "call" silenceChunk =
      ([("call", { audio_buffer := [], silent_duration := 0, is_processing := true })],
        true, some (speechChunk ++ silenceChunk)) := by
  have hR : idResampler (toFloat (List.replicate 96000 (0 : ℤ))) =
      some (List.replicate 96000 ((0 : ℚ))) := by
    simp only [idResampler, silence_toFloat]
  have hbuf :
      ({ audio_buffer := speechChunk, silent_duration := 0, is_processing := false } : CallState).audio_buffer
        ++ silenceChunk = speechChunk ++ silenceChunk := rfl
  have hsil : (if energyLt (List.replicate 96000 ((0 : ℚ)))
        defaultConfig.silence_threshold then
      ({ audio_buffer := speechChunk, silent_duration := 0, is_processing := false } : CallState).silent_duration
        + ((silenceChunk.length / (bytes_per_sample * channels) : ℕ) : ℚ) /
          (defaultConfig.original_sample_rate : ℚ)
    else 0) = 2 := by
    rw [if_pos silence_energy_float, silence_length]
    show (0 : ℚ) + ((192000 / (bytes_per_sample * channels) : ℕ) : ℚ) /
      (defaultConfig.original_sample_rate : ℚ) = 2
    norm_num [bytes_per_sample, channels, defaultConfig]
  have hsd : (defaultConfig.silence_duration_ms : ℚ) / 1000 ≤ 2 := by
    norm_num [defaultConfig]
  have hlen : (defaultConfig.target_sample_rate : ℚ) *
      defaultConfig.min_buffer_duration_s * 2 <
      (((speechChunk ++ silenceChunk).length : ℕ) : ℚ) := by
    rw [List.length_append, speech_length, silence_length]
    norm_num [defaultConfig]
  have hdecF : decodeInt16 (speechChunk ++ silenceChunk) =
      some (List.replicate 24000 (16384 : ℤ) ++ List.replicate 96000 (0 : ℤ)) :=
    decode_append silence_decode speechChunk _ speech_decode
  have hRF : idResampler
      (toFloat (List.replicate 24000 (16384 : ℤ) ++ List.replicate 96000 (0 : ℤ))) =
      some (List.replicate 24000 ((1 : ℚ) / 2) ++ List.replicate 96000 ((0 : ℚ))) := by
    simp only [idResampler, toFloat_append, speech_toFloat, silence_toFloat]
  have hmax : maxAbs
      (List.replicate 24000 ((1 : ℚ) / 2) ++ List.replicate 96000 ((0 : ℚ))) =
      some (1 / 2) := by
    have h24 : (24000 : ℕ) = 23999 + 1 := by norm_num
    rw [h24]
    exact maxAbs_rep_append 23999 96000 (1 / 2) (by norm_num)
  have hpeak : defaultConfig.silence_threshold ≤ 1 / 2 := by
    norm_num [defaultConfig]
  have hcore := processChunkCore_ready_buf defaultConfig idResampler
    { audio_buffer := speechChunk, silent_duration := 0, is_processing := false }
    silenceChunk (speechChunk ++ silenceChunk)
    (List.replicate 96000 (0 : ℤ))
    (List.replicate 24000 (16384 : ℤ) ++ List.replicate 96000 (0 : ℤ))
    (List.replicate 96000 ((0 : ℚ)))
    (List.replicate 24000 ((1 : ℚ) / 2) ++ List.replicate 96000 ((0 : ℚ)))
    2 (1 / 2)
    rfl silence_decode hR hbuf hsil hsd hlen hdecF hRF hmax hpeak
  have hget : get_call_state
      [("call", { audio_buffer := speechChunk, silent_duration := 0, is_processing := false })]
      "call" =
      ([("call", { audio_buffer := speechChunk, silent_duration := 0, is_processing := false })],
        { audio_buffer := speechChunk, silent_duration := 0, is_processing := false }) :=
    get_call_state_of_lookup (aLookup_cons_self _ _ _)
  simp only [process_audio_chunk, hget, hcore, aInsert_cons_self]

/-- The full scenario run: one speech chunk then one silence chunk
produce exactly one ready segment carrying all 240000 accumulated
bytes, leaving the call in dispatch-pending state with an empty buffer. -/
theorem runChunks_nil (cfg : AudioConfig) (R : Resampler) (cid : String)
    (states : CallStates) : runChunks cfg R cid states [] = (states, []) := rfl

theorem runChunks_cons (cfg : AudioConfig) (R : Resampler) (cid : String)
    (states : CallStates) (c : List Byte) (cs : List (List Byte)) :
    runChunks cfg R cid states (c :: cs) =
      ((runChunks cfg R cid (process_audio_chunk cfg R states cid c).1 cs).1,
        (if (process_audio_chunk cfg R states cid c).2.1 then
          (process_audio_chunk cfg R states cid c).2.2.toList
        else []) ++
          (runChunks cfg R cid (process_audio_chunk cfg R states cid c).1 cs).2) := rfl

theorem c3_run :
    runChunks defaultConfig idResampler "call" [] [speechChunk, silenceChunk] =
      ([("call", { audio_buffer := [], silent_duration := 0, is_processing := true })],
        [speechChunk ++ silenceChunk]) := by
  rw [runChunks_cons, c3_step1]
  dsimp only
  rw [runChunks_cons, c3_step2]
  dsimp only
  rw [runChunks_nil]
  rfl

/-- Counterexample to C3 as stated: with the default configuration, 0.5 s
of above-threshold audio (per-chunk energy test false) followed by 2 s of
below-threshold audio (per-chunk energy test true) DOES produce a
segment-ready event: the minimum-buffer-length gate (64000, derived from
the 16 kHz target rate) is met by the 240000 input-rate bytes. -/
theorem scenario_ready_fires :
    decodeInt16 speechChunk = some (List.replicate 24000 (16384 : ℤ)) ∧
    energyLt (toFloat (List.replicate 24000 (16384 : ℤ)))
      defaultConfig.silence_threshold = false ∧
    decodeInt16 silenceChunk = some (List.replicate 96000 (0 : ℤ)) ∧
    energyLt (toFloat (List.replicate 96000 (0 : ℤ)))
      defaultConfig.silence_threshold = true ∧
    (runChunks defaultConfig idResampler "call" [] [speechChunk, silenceChunk]).2 ≠ [] := by
  refine ⟨speech_decode, speech_energy, silence_decode, silence_energy, ?_⟩
  rw [c3_run]
  simp

/-- C3 (amended): in the default configuration the 0.5 s speech + 2 s
silence scenario produces exactly one segment-ready event, carrying all
bytes accumulated since the reset, and leaves the buffer empty with the
dispatch flag set: the minimum-buffer-length gate IS met, because the
accumulator holds input-rate bytes (240000) while the gate is derived
from the target rate (16000 × 2.0 × 2 = 64000). -/
theorem scenario_exactly_one_ready :
    (runChunks defaultConfig idResampler "call" [] [speechChunk, silenceChunk]).2 =
      [speechChunk ++ silenceChunk] ∧
    aLookup "call" (runChunks defaultConfig idResampler "call" []
        [speechChunk, silenceChunk]).1 =
      some { audio_buffer := [], silent_duration := 0, is_processing := true } ∧
    (defaultConfig.target_sample_rate : ℚ) * defaultConfig.min_buffer_duration_s * 2 <
      (((speechChunk ++ silenceChunk).length : ℕ) : ℚ) := by
  refine ⟨?_, ?_, ?_⟩
  · rw [c3_run]
  · rw [c3_run]
    exact aLookup_cons_self _ _ _
  · rw [List.length_append, speech_length, silence_length]
    norm_num [defaultConfig]
